import Mathlib

/-!
Verification of the authentication and authorization logic of the MERN
blog application: server/src/utils/auth.js (token service, role hierarchy)
and server/src/middleware/auth.js (authenticateToken, requireRole,
requireOwnership, optionalAuth), with the configuration defaults of
server/src/config/env.js.

The jsonwebtoken library is an external collaborator; it is modelled
abstractly: a wire token is either the result of signing a payload with a
secret, or a structurally malformed string, and jwt.verify checks
structure, signature and expiry, reporting distinct library errors per
failure kind (JsonWebTokenError vs TokenExpiredError), exactly the
distinctions the repository code does or does not collapse.

JavaScript exceptions are modelled with Except: Except.error is a value
thrown to the caller, Except.ok a value returned to it. JavaScript strings
handled character-wise (header parsing) are modelled as List Char; ids and
messages that are only compared for equality stay String.
-/

namespace MernAuth

/-- Default of JWT_EXPIRE in config/env.js: the string "7d", i.e. seven
days, here in seconds as the jsonwebtoken library interprets it. -/
def JWT_EXPIRE : Nat := 7 * 24 * 60 * 60

/-- Default of JWT_SECRET in config/env.js. -/
def JWT_SECRET : String := "your-super-secret-jwt-key-change-in-production"

/-- The payload generateToken signs: the identity snapshot
(id, username, email, role) plus the standard issued-at and expiry
claims that jwt.sign adds. -/
structure Payload where
  id : String
  username : String
  email : String
  role : String
  iat : Nat
  exp : Nat
deriving Repr, DecidableEq

/-- Abstract wire token: either produced by jwt.sign from a payload and a
signing secret, or a string that is not a well-formed signed token. -/
inductive Jwt where
  | signed (payload : Payload) (secret : String)
  | malformed (raw : String)
deriving Repr, DecidableEq

/-- Model of the external jwt.verify(token, secret): structural check,
signature check, then expiry check (a token is expired once its exp claim
is less than or equal to the current time), with the distinct error kinds
the library reports. Except.error models a thrown exception. -/
def jwtVerify (t : Jwt) (secret : String) (now : Nat) : Except String Payload :=
  match t with
  | .malformed _ => .error "JsonWebTokenError: jwt malformed"
  | .signed p s =>
    if s = secret then
      if p.exp ≤ now then .error "TokenExpiredError: jwt expired"
      else .ok p
    else .error "JsonWebTokenError: invalid signature"

/-- A user document as middleware code sees it (the fields read by the
authentication and authorization paths). -/
structure UserDoc where
  _id : String
  username : String
  email : String
  role : String
  isActive : Bool
deriving Repr, DecidableEq

/-- utils/auth.js generateToken: sign the payload
(id: user._id, username, email, role) with JWT_SECRET and validity
JWT_EXPIRE; now is the signing time jwt.sign reads from the clock. -/
def generateToken (user : UserDoc) (now : Nat) : Jwt :=
  .signed
    { id := user._id, username := user.username, email := user.email,
      role := user.role, iat := now, exp := now + JWT_EXPIRE }
    JWT_SECRET

/-- utils/auth.js verifyToken: try jwt.verify(token, JWT_SECRET); on any
library failure, throw a fresh Error with message "Invalid token"
(Except.error models the throw reaching the caller). -/
def verifyToken (t : Jwt) (now : Nat) : Except String Payload :=
  match jwtVerify t JWT_SECRET now with
  | .ok p => .ok p
  | .error _ => .error "Invalid token"

/-- Model of the JavaScript String.split with a one-character separator,
over strings as character lists: splitting the empty string gives one
empty part, and a trailing separator yields a trailing empty part. -/
def jsSplit (sep : Char) : List Char → List (List Char)
  | [] => [[]]
  | c :: rest =>
    if c = sep then [] :: jsSplit sep rest
    else
      match jsSplit sep rest with
      | [] => [[c]]
      | p :: ps => (c :: p) :: ps

/-- utils/auth.js extractToken: null for a missing or falsy (empty)
header; split the header on single spaces; null unless there are exactly
two parts and the first is the case-sensitive scheme "Bearer"; otherwise
the second part, whatever it is. -/
def extractToken (authHeader : Option (List Char)) : Option (List Char) :=
  match authHeader with
  | none => none
  | some h =>
    if h = [] then none
    else
      match jsSplit ' ' h with
      | [scheme, tok] => if scheme = "Bearer".toList then some tok else none
      | _ => none

/-- utils/auth.js roleHierarchy lookup: the object property access
(roleHierarchy)[role] on the literal with user mapped to 1 and admin to 2;
undefined for any other role, including an undefined one (none). -/
def roleRank (role : Option String) : Option Nat :=
  match role with
  | none => none
  | some r => if r = "user" then some 1 else if r = "admin" then some 2 else none

/-- utils/auth.js hasRole: the comparison
roleHierarchy[userRole] >= roleHierarchy[requiredRole]; in JavaScript a
>= comparison with undefined on either side is false. -/
def hasRole (userRole requiredRole : Option String) : Bool :=
  match roleRank userRole, roleRank requiredRole with
  | some x, some y => decide (y ≤ x)
  | _, _ => false

/-- Result of one Express middleware invocation: either send a JSON
response (status, success flag, message) and stop, or call next() with
req.user as the middleware leaves it. -/
inductive MwResult where
  | respond (status : Nat) (success : Bool) (message : String)
  | proceed (user : Option UserDoc)
deriving Repr, DecidableEq

/-- The lookup User.findById(id).select("-password") over the user
collection, by the string form of the document id. -/
def findById (store : List UserDoc) (id : String) : Option UserDoc :=
  store.find? (fun u => u._id == id)

/-- middleware/auth.js authenticateToken: decode is the interpretation of
a wire string as the abstract token jwt.verify sees, now the clock, store
the user collection, authHeader the value of req.headers.authorization.
The try block catches the throw of verifyToken and responds 401. -/
def authenticateToken (decode : List Char → Jwt) (now : Nat)
    (store : List UserDoc) (authHeader : Option (List Char)) : MwResult :=
  match extractToken authHeader with
  | none => .respond 401 false "Access token is required"
  | some tok =>
    if tok = [] then .respond 401 false "Access token is required"
    else
      match verifyToken (decode tok) now with
      | .error _ => .respond 401 false "Invalid or expired token"
      | .ok decoded =>
        match findById store decoded.id with
        | none => .respond 401 false "User not found"
        | some user =>
          if user.isActive then .proceed (some user)
          else .respond 401 false "Account is deactivated"

/-- middleware/auth.js requireRole(requiredRole) applied to a request with
req.user = user. The logger console is explicit state (logger.warn appends
a line), so independence of the decision from ambient state is a provable
statement rather than a modelling convention. -/
def requireRole (requiredRole : String) (user : Option UserDoc)
    (console : List String) : MwResult × List String :=
  match user with
  | none => (.respond 401 false "Authentication required", console)
  | some u =>
    if hasRole (some u.role) (some requiredRole) then (.proceed (some u), console)
    else (.respond 403 false "Access denied - insufficient permissions",
      console ++ ["Access denied - insufficient permissions"])

/-- A fetched resource document (req.resource): its fields, with values by
their string form (ObjectId values compare via toString). -/
abbrev Resource := List (String × String)

/-- Property access resource[field]. -/
def getField (r : Resource) (field : String) : Option String :=
  (r.find? (fun p => p.1 == field)).map (fun p => p.2)

/-- The value of req.resource && req.resource[resourceField]: undefined
(none) when the resource is absent or lacks the field. -/
def resourceOwner (resource : Option Resource) (field : String) : Option String :=
  resource.bind (fun r => getField r field)

/-- middleware/auth.js requireOwnership(resourceField) applied to a
request with req.user = user and req.resource = resource, logger console
explicit: 401 without a caller; admin bypass; otherwise 403 unless the
owner field value is truthy (present and non-empty) and its string form
equals the string form of the caller id. -/
def requireOwnership (resourceField : String) (user : Option UserDoc)
    (resource : Option Resource) (console : List String) :
    MwResult × List String :=
  match user with
  | none => (.respond 401 false "Authentication required", console)
  | some u =>
    if u.role = "admin" then (.proceed (some u), console)
    else
      match resourceOwner resource resourceField with
      | none =>
        (.respond 403 false "Access denied - you can only access your own resources",
          console ++ ["Access denied - not resource owner"])
      | some rid =>
        if rid = "" ∨ rid ≠ u._id then
          (.respond 403 false "Access denied - you can only access your own resources",
            console ++ ["Access denied - not resource owner"])
        else (.proceed (some u), console)

/-- middleware/auth.js optionalAuth: attach req.user only when a token is
present (truthy), verifies, and names an existing active user; every
failure path falls through to next() with no response and no user
attached (the catch block ignores authentication errors). -/
def optionalAuth (decode : List Char → Jwt) (now : Nat)
    (store : List UserDoc) (authHeader : Option (List Char)) : MwResult :=
  match extractToken authHeader with
  | none => .proceed none
  | some tok =>
    if tok = [] then .proceed none
    else
      match verifyToken (decode tok) now with
      | .error _ => .proceed none
      | .ok decoded =>
        match findById store decoded.id with
        | none => .proceed none
        | some user =>
          if user.isActive then .proceed (some user) else .proceed none

/-- C1: for every identity with non-empty id, username, email and role,
and at any time strictly before the expiry of the token issued for it,
verifyToken applied to the output of generateToken succeeds and the
returned snapshot carries exactly the identity fields. -/
theorem verify_issue_roundtrip (u : UserDoc) (now t : Nat)
    (hid : u._id ≠ "") (hun : u.username ≠ "") (hem : u.email ≠ "")
    (hro : u.role ≠ "") (hexp : t < now + JWT_EXPIRE) :
    ∃ p, verifyToken (generateToken u now) t = .ok p ∧
      p.id = u._id ∧ p.username = u.username ∧
      p.email = u.email ∧ p.role = u.role := by
  refine ⟨⟨u._id, u.username, u.email, u.role, now, now + JWT_EXPIRE⟩,
    ?_, rfl, rfl, rfl, rfl⟩
  unfold verifyToken generateToken jwtVerify
  simp [Nat.not_le.mpr hexp]

/-- Witness for C1 at a concrete identity and clock. -/
theorem verify_issue_roundtrip_witness :
    ∃ p, verifyToken (generateToken ⟨"u1", "alice", "a@b.c", "user", true⟩ 0) 0
        = .ok p ∧
      p.id = "u1" ∧ p.username = "alice" ∧ p.email = "a@b.c" ∧ p.role = "user" :=
  verify_issue_roundtrip ⟨"u1", "alice", "a@b.c", "user", true⟩ 0 0
    (by decide) (by decide) (by decide) (by decide) (by decide)

/-- C4 counterexample: the claim says verifyToken returns a tagged result
to its caller instead of raising an exception; but at the concrete
malformed input the code throws Error("Invalid token") to the caller
(the throw is modelled by Except.error), so no tagged value is returned. -/
theorem verifyToken_throws_on_malformed :
    verifyToken (.malformed "not-a-jwt") 0 = .error "Invalid token" := rfl

/-- C4 amended: verifyToken confines failures to one uniform exception:
for every token and time it either returns the decoded payload accepted by
the signature and expiry check, or throws exactly Error("Invalid token");
the distinct errors of the underlying jwt library never escape. -/
theorem verifyToken_uniform_boundary (t : Jwt) (now : Nat) :
    (∃ p, verifyToken t now = .ok p ∧ jwtVerify t JWT_SECRET now = .ok p) ∨
      verifyToken t now = .error "Invalid token" := by
  unfold verifyToken
  cases h : jwtVerify t JWT_SECRET now with
  | ok p => exact Or.inl ⟨p, rfl, rfl⟩
  | error e => exact Or.inr rfl

/-- C5: any two tokens rejected by the underlying verification (whether
malformed, wrongly signed, or expired, at possibly different times)
produce the identical outcome from verifyToken, so the failure causes are
indistinguishable from the outcome alone. -/
theorem verifyToken_failures_indistinguishable (t1 t2 : Jwt) (n1 n2 : Nat)
    (h1 : ∃ e, jwtVerify t1 JWT_SECRET n1 = .error e)
    (h2 : ∃ e, jwtVerify t2 JWT_SECRET n2 = .error e) :
    verifyToken t1 n1 = verifyToken t2 n2 := by
  obtain ⟨e1, h1⟩ := h1
  obtain ⟨e2, h2⟩ := h2
  unfold verifyToken
  rw [h1, h2]

/-- Witness for C5: a malformed token and an expired token (exp = 10,
checked at time 10) yield the same outcome. -/
theorem verifyToken_failures_indistinguishable_witness :
    verifyToken (.malformed "xyz") 0
      = verifyToken (.signed ⟨"u1", "alice", "a@b.c", "user", 0, 10⟩ JWT_SECRET) 10 :=
  verifyToken_failures_indistinguishable _ _ _ _
    ⟨"JsonWebTokenError: jwt malformed", rfl⟩
    ⟨"TokenExpiredError: jwt expired", by simp [jwtVerify]⟩

theorem jsSplit_ne_nil (sep : Char) (s : List Char) : jsSplit sep s ≠ [] := by
  induction s with
  | nil => simp [jsSplit]
  | cons c rest ih =>
    by_cases h : c = sep
    · simp [jsSplit, h]
    · simp only [jsSplit, if_neg h]
      cases hr : jsSplit sep rest <;> simp

theorem jsSplit_no_sep (sep : Char) (s : List Char) (h : sep ∉ s) :
    jsSplit sep s = [s] := by
  induction s with
  | nil => rfl
  | cons c rest ih =>
    rw [List.mem_cons] at h
    push_neg at h
    obtain ⟨h1, h2⟩ := h
    have hc : ¬ c = sep := fun hh => h1 hh.symm
    simp [jsSplit, hc, ih h2]

theorem jsSplit_append (sep : Char) (a b : List Char) (ha : sep ∉ a) :
    jsSplit sep (a ++ sep :: b) = a :: jsSplit sep b := by
  induction a with
  | nil => simp [jsSplit]
  | cons c a ih =>
    rw [List.mem_cons] at ha
    push_neg at ha
    obtain ⟨h1, h2⟩ := ha
    have hc : ¬ c = sep := fun hh => h1 hh.symm
    simp [jsSplit, hc, ih h2]

theorem jsSplit_eq_singleton (sep : Char) (s x : List Char) :
    jsSplit sep s = [x] ↔ s = x ∧ sep ∉ x := by
  constructor
  · induction s generalizing x with
    | nil =>
      intro h
      simp [jsSplit] at h
      subst h
      simp
    | cons c rest ih =>
      intro h
      by_cases hc : c = sep
      · subst hc
        simp only [jsSplit, if_pos rfl] at h
        obtain ⟨h1, h2⟩ := List.cons_eq_cons.mp h
        exact absurd h2 (jsSplit_ne_nil c rest)
      · simp only [jsSplit, if_neg hc] at h
        cases hr : jsSplit sep rest with
        | nil => exact absurd hr (jsSplit_ne_nil sep rest)
        | cons p ps =>
          rw [hr] at h
          obtain ⟨h1, h2⟩ := List.cons_eq_cons.mp h
          subst h2
          obtain ⟨h3, h4⟩ := ih p hr
          subst h3
          subst h1
          refine ⟨rfl, ?_⟩
          rw [List.mem_cons]
          push_neg
          exact ⟨fun hh => hc hh.symm, h4⟩
  · rintro ⟨rfl, h⟩
    exact jsSplit_no_sep sep _ h

theorem jsSplit_eq_pair (sep : Char) (s a b : List Char) :
    jsSplit sep s = [a, b] ↔ s = a ++ sep :: b ∧ sep ∉ a ∧ sep ∉ b := by
  constructor
  · induction s generalizing a with
    | nil =>
      intro h
      simp [jsSplit] at h
    | cons c rest ih =>
      intro h
      by_cases hc : c = sep
      · subst hc
        simp only [jsSplit, if_pos rfl] at h
        obtain ⟨h1, h2⟩ := List.cons_eq_cons.mp h
        obtain ⟨h3, h4⟩ := (jsSplit_eq_singleton c rest b).mp h2
        subst h3
        simp [h1.symm, h4]
      · simp only [jsSplit, if_neg hc] at h
        cases hr : jsSplit sep rest with
        | nil => exact absurd hr (jsSplit_ne_nil sep rest)
        | cons p ps =>
          rw [hr] at h
          obtain ⟨h1, h2⟩ := List.cons_eq_cons.mp h
          subst h2
          obtain ⟨h3, h4, h5⟩ := ih p hr
          subst h3
          subst h1
          refine ⟨rfl, ?_, h5⟩
          rw [List.mem_cons]
          push_neg
          exact ⟨fun hh => hc hh.symm, h4⟩
  · rintro ⟨rfl, ha, hb⟩
    rw [jsSplit_append sep a b ha, jsSplit_no_sep sep b hb]

/-- C6 counterexample: the claim requires null whenever the remainder
after "Bearer " is empty; at the concrete header "Bearer " the code
instead returns the empty string (splitting yields exactly the two parts
"Bearer" and "", so parts[1] is returned). -/
theorem extractToken_empty_token_not_null :
    extractToken (some ("Bearer ".toList)) = some [] := rfl

/-- C6 amended: extractToken returns a token exactly when the header is
present and has the form "Bearer" plus one space plus a possibly empty,
space-free remainder, in which case it returns that remainder; every
other input (absent or empty header, wrong or differently cased scheme,
no space, extra segments) yields null, and the function is total. -/
theorem extractToken_bearer_spec (h : Option (List Char)) (t : List Char) :
    extractToken h = some t ↔
      h = some ("Bearer".toList ++ ' ' :: t) ∧ ' ' ∉ t := by
  cases h with
  | none => simp [extractToken]
  | some s =>
    simp only [extractToken, Option.some.injEq]
    constructor
    · intro hx
      by_cases hs : s = []
      · rw [if_pos hs] at hx
        exact absurd hx (by simp)
      · rw [if_neg hs] at hx
        cases hsp : jsSplit ' ' s with
        | nil => exact absurd hsp (jsSplit_ne_nil ' ' s)
        | cons p ps =>
          rw [hsp] at hx
          cases ps with
          | nil => exact absurd hx (by simp)
          | cons q qs =>
            cases qs with
            | nil =>
              by_cases hp : p = "Bearer".toList
              · simp only [if_pos hp, Option.some.injEq] at hx
                subst hx
                obtain ⟨hseq, hpa, hpb⟩ := (jsSplit_eq_pair ' ' s p q).mp hsp
                subst hp
                exact ⟨by rw [hseq], hpb⟩
              · simp only [if_neg hp] at hx
                exact absurd hx (by simp)
            | cons r rs => exact absurd hx (by simp)
    · rintro ⟨rfl, ht⟩
      have hB : (' ' : Char) ∉ "Bearer".toList := by decide
      rw [if_neg (by simp), jsSplit_append ' ' _ t hB, jsSplit_no_sep ' ' t ht]
      simp

/-- C2 counterexample: a non-admin caller whose id has the same string
form as the owner field value, both the empty string; the claim says
Allowed (string forms equal), but the code takes the falsy branch of
resourceUserId and denies with the ownership message. -/
theorem requireOwnership_equal_empty_ids_denied :
    (requireOwnership "author" (some ⟨"", "alice", "a@b.c", "user", true⟩)
        (some [("author", "")]) []).1 =
      .respond 403 false "Access denied - you can only access your own resources" := by
  rfl

/-- C2 amended: with the resource present and carrying the owner field
value rid: an absent caller is Unauthenticated (401); an admin caller is
always Allowed; any other caller is Allowed iff rid is truthy (non-empty)
and string-equal to the caller id, and otherwise denied as NotOwner
(403). The truthiness condition is the one amendment to the claim. -/
theorem requireOwnership_decision_spec (field rid : String)
    (caller : Option UserDoc) (console : List String) :
    (requireOwnership field caller (some [(field, rid)]) console).1 =
      match caller with
      | none => .respond 401 false "Authentication required"
      | some u =>
        if u.role = "admin" then .proceed (some u)
        else if rid ≠ "" ∧ rid = u._id then .proceed (some u)
        else .respond 403 false
          "Access denied - you can only access your own resources" := by
  cases caller with
  | none => rfl
  | some u =>
    by_cases hadm : u.role = "admin"
    · simp [requireOwnership, hadm]
    · have hro : resourceOwner (some [(field, rid)]) field = some rid := by
        simp [resourceOwner, getField, List.find?]
      by_cases h0 : rid = ""
      · subst h0
        simp [requireOwnership, hadm, hro]
      · by_cases he : rid = u._id
        · subst he
          simp [requireOwnership, hadm, hro, h0]
        · simp [requireOwnership, hadm, hro, h0, he]

theorem requireRole_decision_const (r : String) (u : Option UserDoc)
    (s s' : List String) : (requireRole r u s).1 = (requireRole r u s').1 := by
  cases u with
  | none => rfl
  | some u =>
    by_cases hc : hasRole (some u.role) (some r) = true <;>
      simp [requireRole, hc]

theorem requireOwnership_decision_const (f : String) (u : Option UserDoc)
    (res : Option Resource) (s s' : List String) :
    (requireOwnership f u res s).1 = (requireOwnership f u res s').1 := by
  cases u with
  | none => rfl
  | some u =>
    by_cases hadm : u.role = "admin"
    · simp [requireOwnership, hadm]
    · cases hro : resourceOwner res f with
      | none => simp [requireOwnership, hadm, hro]
      | some rid =>
        by_cases hd : rid = "" ∨ rid ≠ u._id <;>
          simp [requireOwnership, hadm, hro, hd]

/-- C8: the role and ownership checks are pure functions of their inputs:
the decision is independent of the ambient logger state, and a second
evaluation on identical inputs (run on the state the first evaluation
left behind) yields the identical decision. -/
theorem authorization_checks_pure (requiredRole field : String)
    (user : Option UserDoc) (resource : Option Resource)
    (s1 s2 : List String) :
    ((requireRole requiredRole user s1).1 = (requireRole requiredRole user s2).1
      ∧ (requireRole requiredRole user
            ((requireRole requiredRole user s1).2)).1
          = (requireRole requiredRole user s1).1)
    ∧ ((requireOwnership field user resource s1).1
          = (requireOwnership field user resource s2).1
      ∧ (requireOwnership field user resource
            ((requireOwnership field user resource s1).2)).1
          = (requireOwnership field user resource s1).1) :=
  ⟨⟨requireRole_decision_const _ _ _ _, requireRole_decision_const _ _ _ _⟩,
    requireOwnership_decision_const _ _ _ _ _,
    requireOwnership_decision_const _ _ _ _ _⟩

/-- C7: the four denial causes map to their fixed statuses and exact
messages: no token present on a protected route gives 401 with
"Access token is required" - where no token present means extraction
yields null or the empty (falsy) token, since the code's guard on the
extracted token treats the header "Bearer " exactly like a missing one,
as does the extraction contract of the design (null for an empty
remainder); a present (non-empty) but invalid token gives 401 with
"Invalid or expired token"; an authenticated caller with insufficient
role gives 403 with "Access denied - insufficient permissions"; and no
caller reaching a role or ownership check gives 401 with
"Authentication required". The three token cases (null, empty,
non-empty) are exhaustive, so every token-layer denial is settled.
All bodies carry success: false. -/
theorem denial_status_messages (decode : List Char → Jwt) (now : Nat)
    (store : List UserDoc) (authHeader : Option (List Char))
    (requiredRole field : String) (console : List String)
    (resource : Option Resource) :
    ((extractToken authHeader = none ∨ extractToken authHeader = some []) →
      authenticateToken decode now store authHeader =
        .respond 401 false "Access token is required")
    ∧ (∀ tok, extractToken authHeader = some tok → tok ≠ [] →
        (∃ e, verifyToken (decode tok) now = .error e) →
        authenticateToken decode now store authHeader =
          .respond 401 false "Invalid or expired token")
    ∧ (∀ u : UserDoc, hasRole (some u.role) (some requiredRole) = false →
        (requireRole requiredRole (some u) console).1 =
          .respond 403 false "Access denied - insufficient permissions")
    ∧ ((requireRole requiredRole none console).1 =
        .respond 401 false "Authentication required")
    ∧ ((requireOwnership field none resource console).1 =
        .respond 401 false "Authentication required") := by
  refine ⟨?_, ?_, ?_, rfl, rfl⟩
  · rintro (h | h) <;> simp [authenticateToken, h]
  · rintro tok htok hne ⟨e, he⟩
    simp [authenticateToken, htok, hne, he]
  · intro u h
    simp [requireRole, h]

/-- C9: for every authorization header and environment, optionalAuth
never sends a response and always passes control onward, and it attaches
a caller exactly when a non-empty token was extracted, it verified, and
the decoded id names an existing active user. -/
theorem optionalAuth_always_proceeds (decode : List Char → Jwt) (now : Nat)
    (store : List UserDoc) (authHeader : Option (List Char)) :
    (∃ ou, optionalAuth decode now store authHeader = .proceed ou)
    ∧ (∀ v, optionalAuth decode now store authHeader = .proceed (some v) ↔
        ∃ tok p, extractToken authHeader = some tok ∧ tok ≠ [] ∧
          verifyToken (decode tok) now = .ok p ∧
          findById store p.id = some v ∧ v.isActive = true) := by
  cases hE : extractToken authHeader with
  | none =>
    exact ⟨⟨none, by simp [optionalAuth, hE]⟩, by simp [optionalAuth, hE]⟩
  | some tok =>
    by_cases hne : tok = []
    · subst hne
      exact ⟨⟨none, by simp [optionalAuth, hE]⟩, by simp [optionalAuth, hE]⟩
    · cases hV : verifyToken (decode tok) now with
      | error e =>
        exact ⟨⟨none, by simp [optionalAuth, hE, hne, hV]⟩,
          by simp [optionalAuth, hE, hne, hV]⟩
      | ok p =>
        cases hF : findById store p.id with
        | none =>
          exact ⟨⟨none, by simp [optionalAuth, hE, hne, hV, hF]⟩,
            by simp [optionalAuth, hE, hne, hV, hF]⟩
        | some u =>
          by_cases hA : u.isActive = true
          · refine ⟨⟨some u, by simp [optionalAuth, hE, hne, hV, hF, hA]⟩, ?_⟩
            intro v
            simp [optionalAuth, hE, hne, hV, hF, hA]
            rintro rfl
            exact hA
          · refine ⟨⟨none, by simp [optionalAuth, hE, hne, hV, hF, hA]⟩, ?_⟩
            intro v
            simp [optionalAuth, hE, hne, hV, hF, hA]
            rintro rfl
            simp [hA]

/-- C10: for every authenticated non-admin caller, requireOwnership
allows the request exactly when the fetched resource supplies a truthy
(present, non-empty) owner field value string-equal to the caller id;
and when the resource or its owner field is absent, it denies with 403
and the ownership message rather than allowing or throwing. -/
theorem requireOwnership_nonadmin_owner_check (u : UserDoc) (field : String)
    (resource : Option Resource) (console : List String)
    (hrole : u.role ≠ "admin") :
    ((requireOwnership field (some u) resource console).1 = .proceed (some u) ↔
        (∃ rid, resourceOwner resource field = some rid ∧
          rid ≠ "" ∧ rid = u._id))
    ∧ (resourceOwner resource field = none →
        (requireOwnership field (some u) resource console).1 =
          .respond 403 false
            "Access denied - you can only access your own resources") := by
  constructor
  · cases hro : resourceOwner resource field with
    | none => simp [requireOwnership, hrole, hro]
    | some rid =>
      by_cases h0 : rid = ""
      · subst h0
        simp [requireOwnership, hrole, hro]
      · by_cases he : rid = u._id
        · subst he
          simp [requireOwnership, hrole, hro, h0]
        · simp [requireOwnership, hrole, hro, h0, he]
  · intro hro
    simp [requireOwnership, hrole, hro]

/-- Witness for C10 at a concrete non-admin caller owning the resource. -/
theorem requireOwnership_nonadmin_owner_check_witness :
    ((requireOwnership "author" (some ⟨"u1", "bob", "b@c.d", "user", true⟩)
        (some [("author", "u1")]) []).1 =
          .proceed (some ⟨"u1", "bob", "b@c.d", "user", true⟩) ↔
        (∃ rid, resourceOwner (some [("author", "u1")]) "author" = some rid ∧
          rid ≠ "" ∧ rid = ("u1" : String)))
    ∧ (resourceOwner (some [("author", "u1")]) "author" = none →
        (requireOwnership "author" (some ⟨"u1", "bob", "b@c.d", "user", true⟩)
            (some [("author", "u1")]) []).1 =
          .respond 403 false
            "Access denied - you can only access your own resources") :=
  requireOwnership_nonadmin_owner_check ⟨"u1", "bob", "b@c.d", "user", true⟩
    "author" (some [("author", "u1")]) [] (by decide)

end MernAuth
